import Mathlib

/-!
Verification of the MoonTV `_worker.js` proxy and its companion auth worker.
Strings are modelled as lists of byte values (`List Nat`, each element the
code point of one character, always below 256 for the inputs considered).
Definitions mirror the JavaScript source functions by name.
-/

namespace MoonTV

/-- Byte list of a Lean string literal (each character's code point). -/
def strBytes (s : String) : List Nat :=
  s.toList.map Char.toNat

/-! ## Base64 (the platform `btoa`) -/

/-- Character code of the base64 alphabet at sextet index `n` (for `n < 64`). -/
def b64char (n : Nat) : Nat :=
  if n < 26 then 65 + n
  else if n < 52 then 97 + (n - 26)
  else if n < 62 then 48 + (n - 52)
  else if n = 62 then 43
  else 47

/-- Sextet index of a base64 alphabet character code, `none` for non-alphabet. -/
def b64val (c : Nat) : Option Nat :=
  if 65 ≤ c ∧ c ≤ 90 then some (c - 65)
  else if 97 ≤ c ∧ c ≤ 122 then some (c - 97 + 26)
  else if 48 ≤ c ∧ c ≤ 57 then some (c - 48 + 52)
  else if c = 43 then some 62
  else if c = 47 then some 63
  else none

/-- The platform `btoa`: base64-encode a byte list (62 = code of the pad
character is written as the literal 61, the code of the equals sign). -/
def btoa : List Nat → List Nat
  | [] => []
  | [b1] => [b64char (b1 / 4), b64char (b1 % 4 * 16), 61, 61]
  | [b1, b2] => [b64char (b1 / 4), b64char (b1 % 4 * 16 + b2 / 16), b64char (b2 % 16 * 4), 61]
  | b1 :: b2 :: b3 :: rest =>
      b64char (b1 / 4) :: b64char (b1 % 4 * 16 + b2 / 16) ::
      b64char (b2 % 16 * 4 + b3 / 64) :: b64char (b3 % 64) :: btoa rest

/-- Base64 decoder, the left inverse of `btoa` used to prove it injective. -/
def base64decode : List Nat → Option (List Nat)
  | [] => some []
  | c1 :: c2 :: c3 :: c4 :: rest =>
    match b64val c1, b64val c2 with
    | some v1, some v2 =>
      if c3 = 61 then
        if c4 = 61 ∧ rest = [] then some [v1 * 4 + v2 / 16] else none
      else
        match b64val c3 with
        | some v3 =>
          if c4 = 61 then
            if rest = [] then some [v1 * 4 + v2 / 16, v2 % 16 * 16 + v3 / 4] else none
          else
            match b64val c4 with
            | some v4 =>
              (base64decode rest).map
                (fun t => (v1 * 4 + v2 / 16) :: (v2 % 16 * 16 + v3 / 4) :: (v3 % 4 * 64 + v4) :: t)
            | none => none
        | none => none
    | _, _ => none
  | _ => none

theorem b64val_b64char : ∀ n < 64, b64val (b64char n) = some n := by decide

theorem b64char_ne_pad : ∀ n < 64, b64char n ≠ 61 := by decide

theorem base64decode_btoa (l : List Nat) (h : ∀ b ∈ l, b < 256) :
    base64decode (btoa l) = some l := by
  induction l using btoa.induct with
  | case1 => simp [btoa, base64decode]
  | case2 b1 =>
      have hb1 : b1 < 256 := h b1 (by simp)
      have h1 : b1 / 4 < 64 := by omega
      have h2 : b1 % 4 * 16 < 64 := by omega
      simp only [btoa, base64decode, b64val_b64char _ h1, b64val_b64char _ h2]
      simp
      omega
  | case3 b1 b2 =>
      have hb1 : b1 < 256 := h b1 (by simp)
      have hb2 : b2 < 256 := h b2 (by simp)
      have h1 : b1 / 4 < 64 := by omega
      have h2 : b1 % 4 * 16 + b2 / 16 < 64 := by omega
      have h3 : b2 % 16 * 4 < 64 := by omega
      have e1 : b1 / 4 * 4 + (b1 % 4 * 16 + b2 / 16) / 16 = b1 := by omega
      have e2 : (b1 % 4 * 16 + b2 / 16) % 16 = b2 / 16 := by omega
      simp [btoa, base64decode, b64val_b64char _ h1, b64val_b64char _ h2,
        b64val_b64char _ h3, b64char_ne_pad _ h3, e1, e2]
      omega
  | case4 b1 b2 b3 rest ih =>
      have hb1 : b1 < 256 := h b1 (by simp)
      have hb2 : b2 < 256 := h b2 (by simp)
      have hb3 : b3 < 256 := h b3 (by simp)
      have hrest : ∀ b ∈ rest, b < 256 := fun b hb => h b (by simp [hb])
      have h1 : b1 / 4 < 64 := by omega
      have h2 : b1 % 4 * 16 + b2 / 16 < 64 := by omega
      have h3 : b2 % 16 * 4 + b3 / 64 < 64 := by omega
      have h4 : b3 % 64 < 64 := by omega
      have e1 : b1 / 4 * 4 + (b1 % 4 * 16 + b2 / 16) / 16 = b1 := by omega
      have e2 : (b1 % 4 * 16 + b2 / 16) % 16 = b2 / 16 := by omega
      have e3 : b2 / 16 * 16 + (b2 % 16 * 4 + b3 / 64) / 4 = b2 := by omega
      have e4 : (b2 % 16 * 4 + b3 / 64) % 4 = b3 / 64 := by omega
      have e5 : b3 / 64 * 64 + b3 % 64 = b3 := by omega
      simp [btoa, base64decode, b64val_b64char _ h1, b64val_b64char _ h2,
        b64val_b64char _ h3, b64val_b64char _ h4,
        b64char_ne_pad _ h3, b64char_ne_pad _ h4, ih hrest, e1, e2, e3, e4, e5]

theorem btoa_injective (l1 l2 : List Nat) (h1 : ∀ b ∈ l1, b < 256)
    (h2 : ∀ b ∈ l2, b < 256) (heq : btoa l1 = btoa l2) : l1 = l2 := by
  have e1 := base64decode_btoa l1 h1
  have e2 := base64decode_btoa l2 h2
  rw [heq, e2] at e1
  exact (Option.some.injEq _ _ ▸ e1).symm

/-! ## Auth gate (`checkAuth` in `_worker.js`) -/

/-- Result record of `checkAuth`: an `ok` flag and a failure `reason` string. -/
structure AuthResult where
  ok : Bool
  reason : List Nat
deriving DecidableEq

/-- The source `checkAuth(request, env)`: an unset or empty `PASSWORD` fails
with reason `PASSWORD not set`; otherwise the `Authorization` header (absent
treated as the empty string) must equal `Basic ` + `btoa("admin:" + pwd)`
byte for byte. -/
def checkAuth (pwd : List Nat) (authHeader : Option (List Nat)) : AuthResult :=
  if pwd = [] then { ok := false, reason := strBytes "PASSWORD not set" }
  else
    let auth := authHeader.getD []
    let expected := strBytes "Basic " ++ btoa (strBytes "admin:" ++ pwd)
    if auth ≠ expected then { ok := false, reason := strBytes "Auth required" }
    else { ok := true, reason := [] }

/-- C1: for every non-empty secret `s` and credential `c` (byte strings), the
auth gate authorizes the header `Basic ` + base64(`c`) iff `c` equals
`admin:` + `s`; the header comparison is exact byte equality. -/
theorem checkAuth_authorized_iff (s c : List Nat) (hs : s ≠ [])
    (hsb : ∀ b ∈ s, b < 256) (hcb : ∀ b ∈ c, b < 256) :
    (checkAuth s (some (strBytes "Basic " ++ btoa c))).ok = true ↔
      c = strBytes "admin:" ++ s := by
  have hfix : ∀ b ∈ strBytes "admin:", b < 256 := by decide
  have hadm : ∀ b ∈ strBytes "admin:" ++ s, b < 256 := by
    intro b hb
    rcases List.mem_append.1 hb with h | h
    · exact hfix b h
    · exact hsb b h
  constructor
  · intro hok
    simp only [checkAuth, if_neg hs, Option.getD_some, ne_eq, ite_not] at hok
    by_cases heq : strBytes "Basic " ++ btoa c = strBytes "Basic " ++ btoa (strBytes "admin:" ++ s)
    · have : btoa c = btoa (strBytes "admin:" ++ s) := List.append_cancel_left heq
      exact btoa_injective c _ hcb hadm this
    · rw [if_neg heq] at hok
      exact absurd hok (by decide)
  · intro hc
    subst hc
    simp [checkAuth, if_neg hs]

/-- Witness for C1 at the secret `pw` and credential `admin:pw`. -/
theorem checkAuth_authorized_iff_witness :
    (checkAuth (strBytes "pw")
      (some (strBytes "Basic " ++ btoa (strBytes "admin:pw")))).ok = true :=
  (checkAuth_authorized_iff (strBytes "pw") (strBytes "admin:pw")
    (by decide) (by decide) (by decide)).2 (by decide)

/-! ## Percent encoding (the platform `encodeURIComponent` / `decodeURIComponent`) -/

/-- Bytes that `encodeURIComponent` leaves unescaped:
`A-Z a-z 0-9 - _ . ! ~ * ( )` and the apostrophe (code 39). -/
def isUnreservedByte (b : Nat) : Bool :=
  (65 ≤ b && b ≤ 90) || (97 ≤ b && b ≤ 122) || (48 ≤ b && b ≤ 57) ||
  b == 45 || b == 95 || b == 46 || b == 33 || b == 126 || b == 42 ||
  b == 39 || b == 40 || b == 41

/-- Uppercase hex digit character code of a nibble. -/
def hexUpper (n : Nat) : Nat := if n < 10 then 48 + n else 55 + n

/-- The platform `encodeURIComponent` at the byte level: unreserved bytes are
kept, every other byte becomes a percent escape with uppercase hex digits. -/
def encodeURIComponent : List Nat → List Nat
  | [] => []
  | b :: rest =>
    (if isUnreservedByte b then [b] else [37, hexUpper (b / 16), hexUpper (b % 16)]) ++
      encodeURIComponent rest

/-- Value of a hex digit character code, `none` otherwise. -/
def hexVal (c : Nat) : Option Nat :=
  if 48 ≤ c ∧ c ≤ 57 then some (c - 48)
  else if 65 ≤ c ∧ c ≤ 70 then some (c - 55)
  else if 97 ≤ c ∧ c ≤ 102 then some (c - 87)
  else none

/-- The platform `decodeURIComponent` at the byte level: percent escapes are
decoded, a malformed escape fails (`none`, the `URIError` of the platform). -/
def decodeURIComponent : List Nat → Option (List Nat)
  | [] => some []
  | b :: rest =>
    if b = 37 then
      match rest with
      | h :: l :: rest2 =>
        match hexVal h, hexVal l with
        | some hv, some lv => (decodeURIComponent rest2).map (fun t => (hv * 16 + lv) :: t)
        | _, _ => none
      | _ => none
    else
      (decodeURIComponent rest).map (fun t => b :: t)

theorem hexVal_hexUpper : ∀ n < 16, hexVal (hexUpper n) = some n := by decide

theorem decode_encodeURIComponent (l : List Nat) (h : ∀ b ∈ l, b < 256) :
    decodeURIComponent (encodeURIComponent l) = some l := by
  induction l with
  | nil => rfl
  | cons b rest ih =>
      have hb : b < 256 := h b (by simp)
      have hrest : ∀ x ∈ rest, x < 256 := fun x hx => h x (by simp [hx])
      by_cases hu : isUnreservedByte b = true
      · have hb37 : b ≠ 37 := by
          intro hbe
          rw [hbe] at hu
          exact absurd hu (by decide)
        simp only [encodeURIComponent, if_pos hu, List.singleton_append]
        rw [decodeURIComponent.eq_def]
        simp [hb37, ih hrest]
      · have h1 : b / 16 < 16 := by omega
        have h2 : b % 16 < 16 := by omega
        have e1 : b / 16 * 16 + b % 16 = b := by omega
        simp only [encodeURIComponent, if_neg hu]
        rw [show ([37, hexUpper (b / 16), hexUpper (b % 16)] ++ encodeURIComponent rest)
            = 37 :: hexUpper (b / 16) :: hexUpper (b % 16) :: encodeURIComponent rest from rfl,
          decodeURIComponent.eq_def]
        simp [hexVal_hexUpper _ h1, hexVal_hexUpper _ h2, ih hrest, e1]

/-! ## Target resolution (`handleRequest` lines 70-77 and `ensureProtocol`) -/

/-- The source `ensureProtocol(url, defaultProtocol)`: an empty string becomes
`defaultProtocol + "//"`; a string not starting with `http://` or `https://`
gets `defaultProtocol + "//"` prepended; otherwise it is returned as is. -/
def ensureProtocol (url defaultProtocol : List Nat) : List Nat :=
  if url = [] then defaultProtocol ++ strBytes "//"
  else if List.isPrefixOf (strBytes "http://") url || List.isPrefixOf (strBytes "https://") url
  then url
  else defaultProtocol ++ strBytes "//" ++ url

/-- The source regex `replace(/^\//, "")`: drop one leading slash if present. -/
def stripLeadingSlash (l : List Nat) : List Nat :=
  match l with
  | [] => []
  | b :: rest => if b = 47 then rest else b :: rest

/-- Target resolution of `handleRequest` (lines 70-77): strip the leading
slash from the pathname, percent-decode it, default the protocol, and append
the query string verbatim. `none` when decoding throws. -/
def resolveTarget (pathname search protocol : List Nat) : Option (List Nat) :=
  (decodeURIComponent (stripLeadingSlash pathname)).map
    (fun decoded => ensureProtocol decoded protocol ++ search)

/-- C2: resolving the percent-encoding of an absolute `http`/`https` URL with
an empty query string and any request scheme returns exactly that URL. -/
theorem target_round_trip (u scheme : List Nat) (hu : ∀ b ∈ u, b < 256)
    (habs : List.isPrefixOf (strBytes "http://") u = true ∨
      List.isPrefixOf (strBytes "https://") u = true) :
    resolveTarget (encodeURIComponent u) [] scheme = some u := by
  obtain ⟨u', rfl⟩ : ∃ u', u = 104 :: u' := by
    rcases habs with h | h
    · rcases (List.isPrefixOf_iff_prefix.1 h : _ <+: u) with ⟨t, ht⟩
      exact ⟨_, by rw [← ht]; rfl⟩
    · rcases (List.isPrefixOf_iff_prefix.1 h : _ <+: u) with ⟨t, ht⟩
      exact ⟨_, by rw [← ht]; rfl⟩
  have henc : encodeURIComponent (104 :: u') = 104 :: encodeURIComponent u' := by
    simp [encodeURIComponent, show isUnreservedByte 104 = true from by decide]
  have hstrip : stripLeadingSlash (104 :: encodeURIComponent u') =
      104 :: encodeURIComponent u' := by
    simp [stripLeadingSlash]
  have hdec := decode_encodeURIComponent (104 :: u') hu
  rw [henc] at hdec
  have hens : ensureProtocol (104 :: u') scheme = 104 :: u' := by
    rcases habs with h | h <;> simp [ensureProtocol, h]
  simp only [resolveTarget, henc, hstrip, hdec]
  simp [hens]

/-- Witness for C2 at the URL `https://example.com/new` and scheme `wss:`. -/
theorem target_round_trip_witness :
    resolveTarget (encodeURIComponent (strBytes "https://example.com/new")) []
      (strBytes "wss:") = some (strBytes "https://example.com/new") :=
  target_round_trip (strBytes "https://example.com/new") (strBytes "wss:")
    (by decide) (Or.inr (by decide))

/-- C6: when the decoded target does not start with `http://` or `https://`,
the request scheme plus `//` is prepended, and in every case the original
query string is appended verbatim after the protocol default. -/
theorem resolve_default_scheme (pathname search scheme d : List Nat)
    (hdec : decodeURIComponent (stripLeadingSlash pathname) = some d) :
    resolveTarget pathname search scheme = some (ensureProtocol d scheme ++ search) ∧
    (List.isPrefixOf (strBytes "http://") d = false →
      List.isPrefixOf (strBytes "https://") d = false →
      ensureProtocol d scheme = scheme ++ strBytes "//" ++ d) := by
  constructor
  · simp [resolveTarget, hdec]
  · intro h1 h2
    rcases em (d = []) with hd | hd
    · subst hd
      simp [ensureProtocol]
    · simp [ensureProtocol, hd, h1, h2]

/-- Witness for C6: `example.com/a` with request scheme `https:` resolves to
`https://example.com/a`. -/
theorem resolve_default_scheme_witness :
    resolveTarget (encodeURIComponent (strBytes "example.com/a")) []
        (strBytes "https:") = some (strBytes "https://example.com/a") := by
  have h := resolve_default_scheme (encodeURIComponent (strBytes "example.com/a")) []
    (strBytes "https:") (strBytes "example.com/a") (by decide)
  rw [h.1, h.2 (by decide) (by decide)]
  decide

/-! ## Redirect location rewriting (`handleRedirect` lines 163-175) -/

/-- Location values the platform `new URL(...)` constructor accepts as
absolute `http`/`https` URLs. -/
def parsesAsAbsoluteUrl (l : List Nat) : Bool :=
  List.isPrefixOf (strBytes "http://") l || List.isPrefixOf (strBytes "https://") l

/-- Modelled from the spec: the platform URL serializer `locUrl.toString()`
is not part of the repository; the spec's redirect contract (section 4.5)
takes the absolute location string itself as what gets percent-encoded, so
serialization is the identity on absolute location strings. -/
def urlToString (l : List Nat) : List Nat := l

/-- Location rewriting of `handleRedirect`: an absolute URL is serialized and
percent-encoded behind a leading slash; a relative location (the `catch`
branch) is percent-encoded directly behind a leading slash. -/
def rewriteLocation (locationValue : List Nat) : List Nat :=
  if parsesAsAbsoluteUrl locationValue then
    47 :: encodeURIComponent (urlToString locationValue)
  else
    47 :: encodeURIComponent locationValue

/-- C3: for an absolute-URL location value, the rewritten location is `/` plus
the percent-encoding of the location string; stripping the leading slash and
percent-decoding recovers the original value; and `https://example.com/new`
rewrites exactly to `/https%3A%2F%2Fexample.com%2Fnew`. -/
theorem redirect_rewrite_reversible (loc : List Nat) (hl : ∀ b ∈ loc, b < 256)
    (habs : parsesAsAbsoluteUrl loc = true) :
    rewriteLocation loc = 47 :: encodeURIComponent loc ∧
    decodeURIComponent (stripLeadingSlash (rewriteLocation loc)) = some loc ∧
    rewriteLocation (strBytes "https://example.com/new") =
      strBytes "/https%3A%2F%2Fexample.com%2Fnew" := by
  have h1 : rewriteLocation loc = 47 :: encodeURIComponent loc := by
    simp [rewriteLocation, habs, urlToString]
  refine ⟨h1, ?_, by decide⟩
  rw [h1]
  simp only [stripLeadingSlash, if_pos rfl]
  exact decode_encodeURIComponent loc hl

/-- Witness for C3 at the location `https://example.com/new`. -/
theorem redirect_rewrite_reversible_witness :
    decodeURIComponent (stripLeadingSlash
      (rewriteLocation (strBytes "https://example.com/new"))) =
      some (strBytes "https://example.com/new") :=
  (redirect_rewrite_reversible (strBytes "https://example.com/new")
    (by decide) (by decide)).2.1

/-! ## Header sets -/

/-- ASCII lowercasing of one byte (the platform `toLowerCase` on header
names, which are ASCII). -/
def toLowerByte (b : Nat) : Nat := if 65 ≤ b ∧ b ≤ 90 then b + 32 else b

/-- ASCII lowercasing of a byte string. -/
def toLowerBytes (l : List Nat) : List Nat := l.map toLowerByte

/-- A header set: an ordered list of name/value pairs (names case-insensitive,
values may repeat). -/
abbrev HeaderList := List (List Nat × List Nat)

/-- The source `filterHeaders(headers, filterFunc)`: keep the entries whose
name passes the predicate. -/
def filterHeaders (headers : HeaderList) (filterFunc : List Nat → Bool) : HeaderList :=
  headers.filter (fun e => filterFunc e.1)

/-- The predicate passed to `filterHeaders` in `handleRequest` (lines 80-83):
the lowercased name must not start with `cf-`. -/
def cfFilterFunc (name : List Nat) : Bool :=
  !(List.isPrefixOf (strBytes "cf-") (toLowerBytes name))

/-- The filtered header set `newHeaders` built in `handleRequest`. -/
def newHeaders (headers : HeaderList) : HeaderList :=
  filterHeaders headers cfFilterFunc

/-- C5: the filtered header set contains exactly the entries whose lowercased
name does not start with `cf-` (a sublist, so relative order is preserved,
with the multiplicity of every surviving entry unchanged), and the filter is
idempotent. -/
theorem filterHeaders_spec (H : HeaderList) :
    (∀ e ∈ newHeaders H, List.isPrefixOf (strBytes "cf-") (toLowerBytes e.1) = false) ∧
    (newHeaders H).Sublist H ∧
    (∀ e : List Nat × List Nat, cfFilterFunc e.1 = true →
      (newHeaders H).count e = H.count e) ∧
    newHeaders (newHeaders H) = newHeaders H := by
  refine ⟨?_, ?_, ?_, ?_⟩
  · intro e he
    have := (List.mem_filter.1 he).2
    simpa [cfFilterFunc] using this
  · exact List.filter_sublist H
  · intro e hp
    exact List.count_filter (by simpa using hp)
  · unfold newHeaders filterHeaders
    rw [List.filter_eq_self.2]
    intro a ha
    exact (List.mem_filter.1 ha).2

/-- Witness for C5: the entry `(Accept, */*)` survives the filter with its
multiplicity in a set that also holds a `cf-connecting-ip` entry. -/
theorem filterHeaders_spec_witness :
    (newHeaders [(strBytes "cf-connecting-ip", strBytes "1.2.3.4"),
        (strBytes "Accept", strBytes "*/*")]).count
        ((strBytes "Accept", strBytes "*/*")) =
      ([(strBytes "cf-connecting-ip", strBytes "1.2.3.4"),
        (strBytes "Accept", strBytes "*/*")] : HeaderList).count
        ((strBytes "Accept", strBytes "*/*")) :=
  (filterHeaders_spec [(strBytes "cf-connecting-ip", strBytes "1.2.3.4"),
    (strBytes "Accept", strBytes "*/*")]).2.2.1
    ((strBytes "Accept", strBytes "*/*")) (by decide)

/-- Case-insensitive header lookup (the platform `Headers.get`), observing
the first entry whose lowercased name matches. -/
def hGet (hs : HeaderList) (name : List Nat) : Option (List Nat) :=
  (hs.find? (fun e => toLowerBytes e.1 == toLowerBytes name)).map (fun e => e.2)

/-- Case-insensitive header overwrite (the platform `Headers.set`): replace
the value of every entry whose lowercased name matches, or append the new
entry when none does. -/
def hSet (hs : HeaderList) (name value : List Nat) : HeaderList :=
  if hs.any (fun e => toLowerBytes e.1 == toLowerBytes name) then
    hs.map (fun e => if toLowerBytes e.1 == toLowerBytes name then (e.1, value) else e)
  else hs ++ [(name, value)]

/-- The source `setNoCacheHeaders(headers)`. -/
def setNoCacheHeaders (headers : HeaderList) : HeaderList :=
  hSet (hSet (hSet headers (strBytes "Cache-Control") (strBytes "no-store"))
    (strBytes "Pragma") (strBytes "no-cache")) (strBytes "Expires") (strBytes "0")

/-- The source `setCorsHeaders(headers)`. -/
def setCorsHeaders (headers : HeaderList) : HeaderList :=
  hSet (hSet (hSet headers (strBytes "Access-Control-Allow-Origin") (strBytes "*"))
    (strBytes "Access-Control-Allow-Methods") (strBytes "GET, POST, PUT, DELETE, OPTIONS"))
    (strBytes "Access-Control-Allow-Headers") (strBytes "*")

theorem hGet_congr (hs : HeaderList) (n n' : List Nat)
    (h : toLowerBytes n = toLowerBytes n') : hGet hs n = hGet hs n' := by
  unfold hGet
  rw [h]

theorem hGet_cons (e : List Nat × List Nat) (t : HeaderList) (n : List Nat) :
    hGet (e :: t) n =
      if toLowerBytes e.1 == toLowerBytes n then some e.2 else hGet t n := by
  unfold hGet
  rw [List.find?_cons]
  by_cases hp : (toLowerBytes e.1 == toLowerBytes n) = true
  · simp [hp]
  · simp [hp]

theorem hGet_map_replace (t : HeaderList) (n m v : List Nat)
    (h : toLowerBytes n ≠ toLowerBytes m) :
    hGet (t.map (fun e => if toLowerBytes e.1 == toLowerBytes m then (e.1, v) else e)) n
      = hGet t n := by
  induction t with
  | nil => rfl
  | cons e t ih =>
      rw [List.map_cons, hGet_cons, hGet_cons]
      by_cases hnm : toLowerBytes e.1 = toLowerBytes m
      · have hf : (if toLowerBytes e.1 == toLowerBytes m then (e.1, v) else e)
            = (e.1, v) := by
          simp [hnm]
        have hn : (toLowerBytes e.1 == toLowerBytes n) = false := by
          simp only [beq_eq_false_iff_ne, ne_eq, hnm]
          exact fun he => h he.symm
        rw [hf]
        simp only [hn, Bool.false_eq_true, if_false, ih]
      · have hf : (if toLowerBytes e.1 == toLowerBytes m then (e.1, v) else e) = e := by
          simp [hnm]
        rw [hf, ih]

theorem hGet_hSet_of_ne (hs : HeaderList) (n m v : List Nat)
    (h : toLowerBytes n ≠ toLowerBytes m) : hGet (hSet hs m v) n = hGet hs n := by
  unfold hSet
  split
  · exact hGet_map_replace hs n m v h
  · unfold hGet
    rw [List.find?_append]
    have hm : ((toLowerBytes m == toLowerBytes n) = false) := by
      simp only [beq_eq_false_iff_ne, ne_eq]
      exact fun he => h he.symm
    cases hfind : List.find? (fun e => toLowerBytes e.1 == toLowerBytes n) hs with
    | none => simp [List.find?, hm]
    | some e => simp

theorem hGet_setNoCacheHeaders (hs : HeaderList) (n : List Nat)
    (h1 : toLowerBytes n ≠ strBytes "cache-control")
    (h2 : toLowerBytes n ≠ strBytes "pragma")
    (h3 : toLowerBytes n ≠ strBytes "expires") :
    hGet (setNoCacheHeaders hs) n = hGet hs n := by
  unfold setNoCacheHeaders
  rw [hGet_hSet_of_ne _ _ _ _ (by rw [show toLowerBytes (strBytes "Expires")
        = strBytes "expires" from by decide]; exact h3),
    hGet_hSet_of_ne _ _ _ _ (by rw [show toLowerBytes (strBytes "Pragma")
        = strBytes "pragma" from by decide]; exact h2),
    hGet_hSet_of_ne _ _ _ _ (by rw [show toLowerBytes (strBytes "Cache-Control")
        = strBytes "cache-control" from by decide]; exact h1)]

theorem hGet_setCorsHeaders (hs : HeaderList) (n : List Nat)
    (h1 : toLowerBytes n ≠ strBytes "access-control-allow-origin")
    (h2 : toLowerBytes n ≠ strBytes "access-control-allow-methods")
    (h3 : toLowerBytes n ≠ strBytes "access-control-allow-headers") :
    hGet (setCorsHeaders hs) n = hGet hs n := by
  unfold setCorsHeaders
  rw [hGet_hSet_of_ne _ _ _ _ (by rw [show toLowerBytes
        (strBytes "Access-Control-Allow-Headers")
        = strBytes "access-control-allow-headers" from by decide]; exact h3),
    hGet_hSet_of_ne _ _ _ _ (by rw [show toLowerBytes
        (strBytes "Access-Control-Allow-Methods")
        = strBytes "access-control-allow-methods" from by decide]; exact h2),
    hGet_hSet_of_ne _ _ _ _ (by rw [show toLowerBytes
        (strBytes "Access-Control-Allow-Origin")
        = strBytes "access-control-allow-origin" from by decide]; exact h1)]

/-! ## Responses -/

/-- A response value: status, status text, header set and body bytes. -/
structure ResponseModel where
  status : Nat
  statusText : List Nat
  headers : HeaderList
  body : List Nat
deriving DecidableEq

/-- The 500 response of `handleRequest` when `PASSWORD` is unset
(lines 44-50). -/
def passwordNotSetResponse : ResponseModel where
  status := 500
  statusText := []
  headers := [(strBytes "Content-Type", strBytes "text/plain; charset=utf-8")]
  body := strBytes "PASSWORD not set in Cloudflare Pages/Workers environment variables."

/-- The 401 response of `handleRequest` for a failed credential check
(lines 52-55). -/
def authRequiredResponse : ResponseModel where
  status := 401
  statusText := []
  headers := [(strBytes "WWW-Authenticate", strBytes "Basic realm=\"Protected\"")]
  body := strBytes "Auth required"

/-- The source `jsonResponse(data, status)`; the body is the platform
`JSON.stringify` output, taken here as an argument. -/
def jsonResponse (body : List Nat) (status : Nat) : ResponseModel where
  status := status
  statusText := []
  headers := [(strBytes "Content-Type", strBytes "application/json; charset=utf-8"),
    (strBytes "Cache-Control", strBytes "no-store")]
  body := body

/-- C7 fails on the code: the 401 response carries no cache header at all,
the 500 plain-text response carries no cache header, and the JSON error
response carries no CORS header (and no `Pragma`/`Expires` either). -/
theorem error_headers_counterexample :
    hGet passwordNotSetResponse.headers (strBytes "Cache-Control") = none ∧
    hGet authRequiredResponse.headers (strBytes "Cache-Control") = none ∧
    hGet (jsonResponse (strBytes "\x7b\"error\":\"boom\"\x7d") 500).headers
      (strBytes "Access-Control-Allow-Origin") = none := by
  decide

/-- C7 amended: the JSON error response carries `Cache-Control: no-store`
(but not `Pragma` or `Expires`), the 500 plain-text and 401 responses carry
no cache headers, and CORS headers are present on none of the three error
paths. -/
theorem error_headers_amended (b : List Nat) (s : Nat) :
    hGet (jsonResponse b s).headers (strBytes "Cache-Control") =
      some (strBytes "no-store") ∧
    hGet (jsonResponse b s).headers (strBytes "Pragma") = none ∧
    hGet (jsonResponse b s).headers (strBytes "Expires") = none ∧
    hGet (jsonResponse b s).headers (strBytes "Access-Control-Allow-Origin") = none ∧
    hGet (jsonResponse b s).headers (strBytes "Access-Control-Allow-Methods") = none ∧
    hGet (jsonResponse b s).headers (strBytes "Access-Control-Allow-Headers") = none ∧
    hGet passwordNotSetResponse.headers (strBytes "Cache-Control") = none ∧
    hGet passwordNotSetResponse.headers (strBytes "Pragma") = none ∧
    hGet passwordNotSetResponse.headers (strBytes "Expires") = none ∧
    hGet passwordNotSetResponse.headers (strBytes "Access-Control-Allow-Origin") = none ∧
    hGet authRequiredResponse.headers (strBytes "Cache-Control") = none ∧
    hGet authRequiredResponse.headers (strBytes "Pragma") = none ∧
    hGet authRequiredResponse.headers (strBytes "Expires") = none ∧
    hGet authRequiredResponse.headers (strBytes "Access-Control-Allow-Origin") = none := by
  exact ⟨rfl, rfl, rfl, rfl, rfl, rfl, rfl, rfl, rfl, rfl, rfl, rfl, rfl, rfl⟩

/-! ## HTML relative-path rewriting (`replaceRelativePaths` lines 197-201)

The source applies the global regex `((href|src|action)=["\x27])/(?!/)` and
replaces each match with the captured attribute-plus-quote group followed by
`protocol//host/origin/`. The scan below mirrors the regex engine: at each
position try to match the pattern; on a match, emit the group and the
replacement and continue after the matched slash; otherwise copy one byte. -/

/-- A double or single quote byte (the `["\x27]` character class). -/
def isQuoteByte (b : Nat) : Bool := b == 34 || b == 39

/-- The negative lookahead `(?!/)`: the next byte, if any, is not a slash. -/
def noSlashAhead (l : List Nat) : Bool :=
  match l with
  | [] => true
  | b :: _ => b != 47

/-- Try to match one alternative `tok` (such as `href=`) followed by a quote
and a slash not followed by another slash; returns the captured group (token
plus quote) and the remainder after the matched slash. -/
def tryToken (tok l : List Nat) : Option (List Nat × List Nat) :=
  if List.isPrefixOf tok l then
    match l.drop tok.length with
    | q :: s :: rest =>
      if isQuoteByte q && s == 47 && noSlashAhead rest then some (tok ++ [q], rest)
      else none
    | _ => none
  else none

/-- Try the three alternatives of the regex at the current position. -/
def matchAttrAt (l : List Nat) : Option (List Nat × List Nat) :=
  match tryToken (strBytes "href=") l with
  | some r => some r
  | none =>
    match tryToken (strBytes "src=") l with
    | some r => some r
    | none => tryToken (strBytes "action=") l

theorem tryToken_length (tok l g rest : List Nat)
    (h : tryToken tok l = some (g, rest)) : rest.length < l.length := by
  unfold tryToken at h
  split at h
  · cases hd : l.drop tok.length with
    | nil => rw [hd] at h; cases h
    | cons q t =>
        cases t with
        | nil => rw [hd] at h; cases h
        | cons s rest2 =>
            rw [hd] at h
            have h' : (if (isQuoteByte q && s == 47 && noSlashAhead rest2) = true
                then some (tok ++ [q], rest2) else none) = some (g, rest) := h
            by_cases hc : (isQuoteByte q && s == 47 && noSlashAhead rest2) = true
            · rw [if_pos hc] at h'
              have hpair := Option.some.inj h'
              have hr : rest2 = rest := congrArg Prod.snd hpair
              have hlen : (l.drop tok.length).length = l.length - tok.length :=
                List.length_drop _ _
              rw [hd] at hlen
              simp only [List.length_cons] at hlen
              subst hr
              omega
            · rw [if_neg hc] at h'; cases h'
  · cases h

theorem matchAttrAt_length (l g rest : List Nat)
    (h : matchAttrAt l = some (g, rest)) : rest.length < l.length := by
  unfold matchAttrAt at h
  cases h1 : tryToken (strBytes "href=") l with
  | some r =>
      rw [h1] at h
      cases r with
      | mk a b =>
          injection h with h
          injection h with ha hb
          subst ha; subst hb
          exact tryToken_length _ _ _ _ h1
  | none =>
      rw [h1] at h
      cases h2 : tryToken (strBytes "src=") l with
      | some r =>
          rw [h2] at h
          cases r with
          | mk a b =>
              injection h with h
              injection h with ha hb
              subst ha; subst hb
              exact tryToken_length _ _ _ _ h2
      | none =>
          rw [h2] at h
          exact tryToken_length _ _ _ _ h


/-- The global-replace scan: emit the captured group and the replacement at
each match and continue after the matched slash (the replacement itself is
not rescanned, as with the platform `String.replace`); otherwise copy one
byte and continue. -/
def replaceAux (repl : List Nat) (l : List Nat) : List Nat :=
  match l with
  | [] => []
  | b :: rest =>
    match hm : matchAttrAt (b :: rest) with
    | some (g, after) => g ++ repl ++ replaceAux repl after
    | none => b :: replaceAux repl rest
termination_by l.length
decreasing_by
  · exact matchAttrAt_length _ _ _ hm
  · simp

/-- The source `replaceRelativePaths(text, protocol, host, origin)`: apply
the scan with replacement `protocol//host/origin/` (after the captured
attribute-plus-quote group). -/
def replaceRelativePaths (text protocol host origin : List Nat) : List Nat :=
  replaceAux (protocol ++ strBytes "//" ++ host ++ strBytes "/" ++ origin ++ strBytes "/")
    text

theorem replaceAux_nil (repl : List Nat) : replaceAux repl [] = [] := by
  rw [replaceAux.eq_def]

theorem replaceAux_cons_none (repl : List Nat) (b : Nat) (rest : List Nat)
    (h : matchAttrAt (b :: rest) = none) :
    replaceAux repl (b :: rest) = b :: replaceAux repl rest := by
  have e : replaceAux repl (b :: rest)
      = (match hm : matchAttrAt (b :: rest) with
         | some (g, after) => g ++ repl ++ replaceAux repl after
         | none => b :: replaceAux repl rest) := by
    rw [replaceAux.eq_def]
  rw [e]
  split
  · rename_i g after hm
    rw [h] at hm
    cases hm
  · rfl

theorem replaceAux_cons_some (repl : List Nat) (b : Nat) (rest g after : List Nat)
    (h : matchAttrAt (b :: rest) = some (g, after)) :
    replaceAux repl (b :: rest) = g ++ repl ++ replaceAux repl after := by
  have e : replaceAux repl (b :: rest)
      = (match hm : matchAttrAt (b :: rest) with
         | some (g, after) => g ++ repl ++ replaceAux repl after
         | none => b :: replaceAux repl rest) := by
    rw [replaceAux.eq_def]
  rw [e]
  split
  · rename_i g' after' hm
    rw [h] at hm
    have hpair := Option.some.inj hm
    injection hpair with h1 h2
    subst h1
    subst h2
    rfl
  · rename_i hm
    rw [h] at hm
    cases hm

/-- No position of `l` matches the attribute pattern. -/
def noMatches : List Nat → Bool
  | [] => true
  | b :: rest => (matchAttrAt (b :: rest)).isNone && noMatches rest

theorem replaceAux_of_noMatches (repl l : List Nat) (h : noMatches l = true) :
    replaceAux repl l = l := by
  induction l with
  | nil => exact replaceAux_nil repl
  | cons b rest ih =>
      rw [noMatches, Bool.and_eq_true] at h
      rw [replaceAux_cons_none repl b rest (Option.isNone_iff_eq_none.1 h.1), ih h.2]

/-- The three alternatives of the regex, each including the equals sign. -/
def attrTokens : List (List Nat) :=
  [strBytes "href=", strBytes "src=", strBytes "action="]

/-- No position inside `u` starts a match, even seeing the continuation `w`. -/
def noMatchesPre : List Nat → List Nat → Bool
  | [], _ => true
  | b :: rest, w => (matchAttrAt ((b :: rest) ++ w)).isNone && noMatchesPre rest w

theorem tryToken_head_ne (a b : Nat) (toks l : List Nat) (hab : a ≠ b) :
    tryToken (a :: toks) (b :: l) = none := by
  have hne : (a == b) = false := beq_eq_false_iff_ne.2 hab
  have hp : List.isPrefixOf (a :: toks) (b :: l) = false := by
    simp [List.isPrefixOf, hne]
  simp [tryToken, hp]

theorem tryToken_append_ne (a : Nat) (atoks : List Nat) (b : Nat) (btoks x : List Nat)
    (hab : a ≠ b) : tryToken (a :: atoks) ((b :: btoks) ++ x) = none := by
  rw [List.cons_append]
  exact tryToken_head_ne a b _ _ hab

theorem tryToken_self (tok : List Nat) (q : Nat) (v : List Nat)
    (hq : isQuoteByte q = true) (hv : noSlashAhead v = true) :
    tryToken tok (tok ++ q :: 47 :: v) = some (tok ++ [q], v) := by
  have hpre : List.isPrefixOf tok (tok ++ q :: 47 :: v) = true :=
    List.isPrefixOf_iff_prefix.2 (List.prefix_append tok _)
  unfold tryToken
  rw [if_pos hpre, List.drop_left]
  simp [hq, hv]

theorem tryToken_self_doubleslash (tok : List Nat) (q : Nat) (v : List Nat) :
    tryToken tok (tok ++ q :: 47 :: 47 :: v) = none := by
  have hpre : List.isPrefixOf tok (tok ++ q :: 47 :: 47 :: v) = true :=
    List.isPrefixOf_iff_prefix.2 (List.prefix_append tok _)
  unfold tryToken
  rw [if_pos hpre, List.drop_left]
  simp [noSlashAhead]

theorem matchAttrAt_occurrence (tok : List Nat) (q : Nat) (v : List Nat)
    (htok : tok ∈ attrTokens) (hq : isQuoteByte q = true) (hv : noSlashAhead v = true) :
    matchAttrAt (tok ++ q :: 47 :: v) = some (tok ++ [q], v) := by
  simp only [attrTokens, List.mem_cons, List.not_mem_nil, or_false] at htok
  rcases htok with rfl | rfl | rfl
  · unfold matchAttrAt
    rw [tryToken_self _ q v hq hv]
  · unfold matchAttrAt
    rw [show strBytes "src=" = 115 :: [114, 99, 61] from by decide,
      show strBytes "href=" = 104 :: [114, 101, 102, 61] from by decide,
      tryToken_append_ne 104 [114, 101, 102, 61] 115 [114, 99, 61] _ (by decide),
      tryToken_self (115 :: [114, 99, 61]) q v hq hv]
  · unfold matchAttrAt
    rw [show strBytes "action=" = 97 :: [99, 116, 105, 111, 110, 61] from by decide,
      show strBytes "href=" = 104 :: [114, 101, 102, 61] from by decide,
      show strBytes "src=" = 115 :: [114, 99, 61] from by decide,
      tryToken_append_ne 104 [114, 101, 102, 61] 97 [99, 116, 105, 111, 110, 61] _ (by decide),
      tryToken_append_ne 115 [114, 99, 61] 97 [99, 116, 105, 111, 110, 61] _ (by decide),
      tryToken_self (97 :: [99, 116, 105, 111, 110, 61]) q v hq hv]

theorem matchAttrAt_doubleslash (tok : List Nat) (q : Nat) (v : List Nat)
    (htok : tok ∈ attrTokens) :
    matchAttrAt (tok ++ q :: 47 :: 47 :: v) = none := by
  simp only [attrTokens, List.mem_cons, List.not_mem_nil, or_false] at htok
  rcases htok with rfl | rfl | rfl
  · unfold matchAttrAt
    rw [tryToken_self_doubleslash _ q v,
      show strBytes "href=" = 104 :: [114, 101, 102, 61] from by decide,
      show strBytes "src=" = 115 :: [114, 99, 61] from by decide,
      show strBytes "action=" = 97 :: [99, 116, 105, 111, 110, 61] from by decide,
      tryToken_append_ne 115 [114, 99, 61] 104 [114, 101, 102, 61] _ (by decide),
      tryToken_append_ne 97 [99, 116, 105, 111, 110, 61] 104 [114, 101, 102, 61] _ (by decide)]
  · unfold matchAttrAt
    rw [tryToken_self_doubleslash _ q v,
      show strBytes "src=" = 115 :: [114, 99, 61] from by decide,
      show strBytes "href=" = 104 :: [114, 101, 102, 61] from by decide,
      show strBytes "action=" = 97 :: [99, 116, 105, 111, 110, 61] from by decide,
      tryToken_append_ne 104 [114, 101, 102, 61] 115 [114, 99, 61] _ (by decide),
      tryToken_append_ne 97 [99, 116, 105, 111, 110, 61] 115 [114, 99, 61] _ (by decide)]
  · unfold matchAttrAt
    rw [tryToken_self_doubleslash _ q v,
      show strBytes "action=" = 97 :: [99, 116, 105, 111, 110, 61] from by decide,
      show strBytes "href=" = 104 :: [114, 101, 102, 61] from by decide,
      show strBytes "src=" = 115 :: [114, 99, 61] from by decide,
      tryToken_append_ne 104 [114, 101, 102, 61] 97 [99, 116, 105, 111, 110, 61] _ (by decide),
      tryToken_append_ne 115 [114, 99, 61] 97 [99, 116, 105, 111, 110, 61] _ (by decide)]

theorem replaceAux_eq_of_match (repl l g after : List Nat)
    (h : matchAttrAt l = some (g, after)) :
    replaceAux repl l = g ++ repl ++ replaceAux repl after := by
  cases l with
  | nil =>
      rw [show matchAttrAt [] = none from by decide] at h
      cases h
  | cons b rest => exact replaceAux_cons_some repl b rest g after h

theorem replaceAux_occurrence (repl u tok : List Nat) (q : Nat) (v : List Nat)
    (htok : tok ∈ attrTokens) (hq : isQuoteByte q = true) (hv : noSlashAhead v = true)
    (hu : noMatchesPre u (tok ++ q :: 47 :: v) = true) :
    replaceAux repl (u ++ (tok ++ q :: 47 :: v)) =
      u ++ (tok ++ [q]) ++ repl ++ replaceAux repl v := by
  induction u with
  | nil =>
      rw [List.nil_append,
        replaceAux_eq_of_match repl _ _ _ (matchAttrAt_occurrence tok q v htok hq hv)]
      simp [List.append_assoc]
  | cons b u ih =>
      rw [noMatchesPre, Bool.and_eq_true] at hu
      have h1 : matchAttrAt (b :: (u ++ (tok ++ q :: 47 :: v))) = none := by
        have := Option.isNone_iff_eq_none.1 hu.1
        rwa [List.cons_append] at this
      rw [List.cons_append, replaceAux_cons_none repl b _ h1, ih hu.2]
      simp [List.append_assoc]

/-- C4: over all documents, the rewriter rewrites every occurrence of
`href=`, `src=` or `action=` followed by a double or single quote and a
root-relative value (a slash not followed by another slash) into the same
attribute and quote with the value prefixed by `{protocol}//{host}/{origin}/`,
continuing the scan after the occurrence; a protocol-relative value beginning
with `//` never starts a match, and match-free text is returned verbatim; in
particular `<a href="/x">` becomes `<a href="{protocol}//{host}/{origin}/x">`
while `<a href="//x">` is left unmodified. -/
theorem replaceRelativePaths_scoping (protocol host origin : List Nat) :
    (∀ u tok v, ∀ q : Nat, tok ∈ attrTokens → isQuoteByte q = true →
      noSlashAhead v = true → noMatchesPre u (tok ++ q :: 47 :: v) = true →
      replaceRelativePaths (u ++ tok ++ q :: 47 :: v) protocol host origin =
        u ++ tok ++ [q] ++ protocol ++ strBytes "//" ++ host ++ strBytes "/" ++ origin ++
          strBytes "/" ++ replaceRelativePaths v protocol host origin) ∧
    (∀ tok v, ∀ q : Nat, tok ∈ attrTokens →
      matchAttrAt (tok ++ q :: 47 :: 47 :: v) = none) ∧
    (∀ text, noMatches text = true →
      replaceRelativePaths text protocol host origin = text) ∧
    replaceRelativePaths (strBytes "<a href=\"/x\">") protocol host origin =
      strBytes "<a href=\"" ++ protocol ++ strBytes "//" ++ host ++ strBytes "/" ++
        origin ++ strBytes "/x\">" ∧
    replaceRelativePaths (strBytes "<a href=\"//x\">") protocol host origin =
      strBytes "<a href=\"//x\">" := by
  have hmain : ∀ u tok v, ∀ q : Nat, tok ∈ attrTokens → isQuoteByte q = true →
      noSlashAhead v = true → noMatchesPre u (tok ++ q :: 47 :: v) = true →
      replaceRelativePaths (u ++ tok ++ q :: 47 :: v) protocol host origin =
        u ++ tok ++ [q] ++ protocol ++ strBytes "//" ++ host ++ strBytes "/" ++ origin ++
          strBytes "/" ++ replaceRelativePaths v protocol host origin := by
    intro u tok v q htok hq hv hu
    unfold replaceRelativePaths
    rw [show u ++ tok ++ q :: 47 :: v = u ++ (tok ++ q :: 47 :: v) from
      List.append_assoc u tok _]
    rw [replaceAux_occurrence _ u tok q v htok hq hv hu]
    simp [List.append_assoc]
  have hid : ∀ text, noMatches text = true →
      replaceRelativePaths text protocol host origin = text := by
    intro text ht
    unfold replaceRelativePaths
    exact replaceAux_of_noMatches _ text ht
  refine ⟨hmain, ?_, hid, ?_, ?_⟩
  · intro tok v q htok
    exact matchAttrAt_doubleslash tok q v htok
  · have h1 := hmain (strBytes "<a ") (strBytes "href=") (strBytes "x\">") 34
      (by decide) (by decide) (by decide) (by decide)
    rw [hid (strBytes "x\">") (by decide)] at h1
    rw [show strBytes "<a href=\"/x\">"
        = strBytes "<a " ++ strBytes "href=" ++ 34 :: 47 :: strBytes "x\">" from by decide]
    rw [h1]
    rw [show strBytes "<a " = [60, 97, 32] from by decide,
      show strBytes "href=" = [104, 114, 101, 102, 61] from by decide,
      show strBytes "<a href=\"" = [60, 97, 32, 104, 114, 101, 102, 61, 34] from by decide,
      show strBytes "/" = [47] from by decide,
      show strBytes "/x\">" = [47, 120, 34, 62] from by decide,
      show strBytes "x\">" = [120, 34, 62] from by decide]
    simp [List.append_assoc]
  · exact hid (strBytes "<a href=\"//x\">") (by decide)

/-- Witness for C4: the occurrence rewriting applied at the concrete document
prefix `<a `, token `href=`, double quote and tail `x">`. -/
theorem replaceRelativePaths_scoping_witness :
    replaceRelativePaths (strBytes "<a " ++ strBytes "href=" ++ 34 :: 47 :: strBytes "x\">")
        (strBytes "https:") (strBytes "proxy.example") (strBytes "https://target.example") =
      strBytes "<a " ++ strBytes "href=" ++ [34] ++ strBytes "https:" ++ strBytes "//" ++
        strBytes "proxy.example" ++ strBytes "/" ++ strBytes "https://target.example" ++
        strBytes "/" ++ replaceRelativePaths (strBytes "x\">") (strBytes "https:")
          (strBytes "proxy.example") (strBytes "https://target.example") :=
  (replaceRelativePaths_scoping (strBytes "https:") (strBytes "proxy.example")
    (strBytes "https://target.example")).1 (strBytes "<a ") (strBytes "href=")
    (strBytes "x\">") 34 (by decide) (by decide) (by decide) (by decide)

/-- The `locationValue` expression of `handleRedirect`:
`headers.get("location") || headers.get("Location")`, a missing header or an
empty value giving the empty string. -/
def redirectLocationValue (headers : HeaderList) : List Nat :=
  if (hGet headers (strBytes "location")).getD [] = [] then
    (hGet headers (strBytes "Location")).getD []
  else (hGet headers (strBytes "location")).getD []

/-- The source `handleRedirect(response)`: without a location value the
response is passed through with cache/CORS headers applied; otherwise the
`Location` header is overwritten with the rewritten location, and cache/CORS
headers are applied; status, status text and body are copied either way. -/
def handleRedirect (response : ResponseModel) : ResponseModel :=
  if redirectLocationValue response.headers = [] then
    { status := response.status, statusText := response.statusText,
      headers := setCorsHeaders (setNoCacheHeaders response.headers),
      body := response.body }
  else
    { status := response.status, statusText := response.statusText,
      headers := setCorsHeaders (setNoCacheHeaders
        (hSet response.headers (strBytes "Location")
          (rewriteLocation (redirectLocationValue response.headers)))),
      body := response.body }

/-- Lowercased names of the headers `handleRedirect` may touch. -/
def redirectTouchedNames : List (List Nat) :=
  [strBytes "location", strBytes "cache-control", strBytes "pragma", strBytes "expires",
   strBytes "access-control-allow-origin", strBytes "access-control-allow-methods",
   strBytes "access-control-allow-headers"]

/-- C8: `handleRedirect` passes status, status text and body through
unmodified, changes no header other than `Location` and the cache/CORS
headers, and when no `Location` header is present returns the response
unchanged apart from the cache/CORS headers being applied. -/
theorem handleRedirect_frame (r : ResponseModel) :
    (handleRedirect r).status = r.status ∧
    (handleRedirect r).statusText = r.statusText ∧
    (handleRedirect r).body = r.body ∧
    (∀ n, toLowerBytes n ∉ redirectTouchedNames →
      hGet (handleRedirect r).headers n = hGet r.headers n) ∧
    (hGet r.headers (strBytes "Location") = none →
      (handleRedirect r).headers = setCorsHeaders (setNoCacheHeaders r.headers)) := by
  refine ⟨?_, ?_, ?_, ?_, ?_⟩
  · by_cases hc : redirectLocationValue r.headers = [] <;> simp [handleRedirect, hc]
  · by_cases hc : redirectLocationValue r.headers = [] <;> simp [handleRedirect, hc]
  · by_cases hc : redirectLocationValue r.headers = [] <;> simp [handleRedirect, hc]
  · intro n hn
    simp only [redirectTouchedNames, List.mem_cons, List.mem_singleton, not_or] at hn
    obtain ⟨h1, h2, h3, h4, h5, h6, h7, -⟩ := hn
    by_cases hc : redirectLocationValue r.headers = []
    · simp only [handleRedirect, hc, if_true, if_false]
      rw [hGet_setCorsHeaders _ _ h5 h6 h7, hGet_setNoCacheHeaders _ _ h2 h3 h4]
    · simp only [handleRedirect, hc, if_true, if_false]
      rw [hGet_setCorsHeaders _ _ h5 h6 h7, hGet_setNoCacheHeaders _ _ h2 h3 h4,
        hGet_hSet_of_ne _ _ _ _ (by rw [show toLowerBytes (strBytes "Location")
          = strBytes "location" from by decide]; exact h1)]
  · intro h0
    have hlow : hGet r.headers (strBytes "location") = none := by
      rw [hGet_congr r.headers (strBytes "location") (strBytes "Location") (by decide)]
      exact h0
    have hval : redirectLocationValue r.headers = [] := by
      simp [redirectLocationValue, hlow, h0]
    simp [handleRedirect, hval]

/-- A sample 302 response without a `Location` header, used as witness input. -/
def sampleRedirectInput : ResponseModel where
  status := 302
  statusText := []
  headers := [(strBytes "X-Id", strBytes "7")]
  body := strBytes "b"

/-- Witness for C8: a 302 response with no `Location` header and one `X-Id`
header keeps everything except the added cache/CORS headers. -/
theorem handleRedirect_frame_witness :
    (handleRedirect sampleRedirectInput).headers =
      setCorsHeaders (setNoCacheHeaders sampleRedirectInput.headers) :=
  (handleRedirect_frame sampleRedirectInput).2.2.2.2 (by decide)

/-! ## Forwarder request construction (`handleRequest` lines 86-97) -/

/-- The outbound request options built in `handleRequest`: filtered headers,
the inbound method (defaulted to `GET` when falsy), redirect mode, and the
body field. -/
structure RequestInitModel where
  headers : HeaderList
  method : List Nat
  redirect : List Nat
  body : Option (List Nat)
deriving DecidableEq

/-- The `init` object of `handleRequest` (lines 86-96): redirect mode is
`manual`, and the inbound body is attached only when the method is neither
`GET` nor `HEAD`. -/
def buildProxyInit (requestMethod : List Nat) (headers : HeaderList)
    (requestBody : Option (List Nat)) : RequestInitModel :=
  let method := if requestMethod = [] then strBytes "GET" else requestMethod
  { headers := headers, method := method, redirect := strBytes "manual",
    body := if method ≠ strBytes "GET" ∧ method ≠ strBytes "HEAD" then requestBody
      else none }

/-- C9: the outbound request has redirect following disabled (mode `manual`),
and carries the inbound body exactly when the method is neither `GET` nor
`HEAD`. -/
theorem buildProxyInit_spec (m : List Nat) (hs : HeaderList) (b : Option (List Nat))
    (hm : m ≠ []) :
    (buildProxyInit m hs b).redirect = strBytes "manual" ∧
    (m ≠ strBytes "GET" → m ≠ strBytes "HEAD" → (buildProxyInit m hs b).body = b) ∧
    (m = strBytes "GET" ∨ m = strBytes "HEAD" → (buildProxyInit m hs b).body = none) := by
  refine ⟨rfl, ?_, ?_⟩
  · intro h1 h2
    simp [buildProxyInit, hm, h1, h2]
  · intro h
    rcases h with h | h <;> subst h <;> rfl

/-- Witness for C9 at method `POST` with a non-empty body. -/
theorem buildProxyInit_spec_witness :
    (buildProxyInit (strBytes "POST") [] (some (strBytes "x"))).body
      = some (strBytes "x") :=
  (buildProxyInit_spec (strBytes "POST") [] (some (strBytes "x"))
    (by decide)).2.1 (by decide) (by decide)

/-! ## The companion worker (`src/unnamed/part_000`) and gate equivalence -/

/-- The auth gate of `_worker.js`: run `checkAuth` and turn a failure into
the 500 or 401 response of `handleRequest` (lines 41-56); `none` means the
request proceeds. -/
def workerAuthGate (pwd : List Nat) (authHeader : Option (List Nat)) :
    Option ResponseModel :=
  let auth := checkAuth pwd authHeader
  if auth.ok then none
  else if auth.reason = strBytes "PASSWORD not set" then some passwordNotSetResponse
  else some authRequiredResponse

/-- The 500 response of the companion worker when `PASSWORD` is unset
(`src/unnamed/part_000` lines 5-10). -/
def pagesPasswordNotSetResponse : ResponseModel where
  status := 500
  statusText := []
  headers := [(strBytes "Content-Type", strBytes "text/plain; charset=utf-8")]
  body := strBytes "PASSWORD not set in Cloudflare Pages environment."

/-- The 401 response of the companion worker for a credential mismatch
(`src/unnamed/part_000` lines 16-21). -/
def pagesAuthRequiredResponse : ResponseModel where
  status := 401
  statusText := []
  headers := [(strBytes "WWW-Authenticate", strBytes "Basic realm=\"Protected\"")]
  body := strBytes "Auth required"

/-- The inline gate of the companion worker `src/unnamed/part_000` (lines
3-21): a missing `PASSWORD` gives a plain-text 500, a credential mismatch
gives the 401 challenge, and otherwise the request proceeds (`none`, handed
to the static-assets binding). -/
def pagesAuthGate (pwd : List Nat) (authHeader : Option (List Nat)) :
    Option ResponseModel :=
  if pwd = [] then some pagesPasswordNotSetResponse
  else if authHeader.getD [] ≠ strBytes "Basic " ++ btoa (strBytes "admin:" ++ pwd) then
    some pagesAuthRequiredResponse
  else none

/-- C10: the two workers implement the same auth gate: they authorize exactly
the same (secret, header) pairs; with the secret unset both give a 500 with a
`text/plain` content type; and with a set secret the failure responses are
identical (the 401 with the `WWW-Authenticate: Basic realm="Protected"`
challenge). -/
theorem auth_gate_equivalence (pwd : List Nat) (authHeader : Option (List Nat)) :
    (workerAuthGate pwd authHeader = none ↔ pagesAuthGate pwd authHeader = none) ∧
    (pwd = [] →
      ∃ r1 r2, workerAuthGate pwd authHeader = some r1 ∧
        pagesAuthGate pwd authHeader = some r2 ∧
        r1.status = 500 ∧ r2.status = 500 ∧
        hGet r1.headers (strBytes "Content-Type")
          = some (strBytes "text/plain; charset=utf-8") ∧
        hGet r2.headers (strBytes "Content-Type")
          = some (strBytes "text/plain; charset=utf-8")) ∧
    (pwd ≠ [] → workerAuthGate pwd authHeader = pagesAuthGate pwd authHeader) := by
  have hreason : strBytes "Auth required" ≠ strBytes "PASSWORD not set" := by decide
  have hsame : authRequiredResponse = pagesAuthRequiredResponse := by decide
  refine ⟨?_, ?_, ?_⟩
  · by_cases hp : pwd = []
    · subst hp
      simp [workerAuthGate, pagesAuthGate, checkAuth]
    · by_cases ha : authHeader.getD [] = strBytes "Basic " ++ btoa (strBytes "admin:" ++ pwd)
      · simp [workerAuthGate, pagesAuthGate, checkAuth, hp, ha]
      · simp [workerAuthGate, pagesAuthGate, checkAuth, hp, ha, hreason]
  · intro hp
    subst hp
    refine ⟨passwordNotSetResponse, pagesPasswordNotSetResponse, ?_, ?_, rfl, rfl, rfl, rfl⟩
    · simp [workerAuthGate, checkAuth]
    · simp [pagesAuthGate]
  · intro hp
    by_cases ha : authHeader.getD [] = strBytes "Basic " ++ btoa (strBytes "admin:" ++ pwd)
    · simp [workerAuthGate, pagesAuthGate, checkAuth, hp, ha]
    · simp [workerAuthGate, pagesAuthGate, checkAuth, hp, ha, hreason, hsame]

/-- Witness for C10: with the secret `pw` set and no credentials supplied,
both workers produce the same response. -/
theorem auth_gate_equivalence_witness :
    workerAuthGate (strBytes "pw") none = pagesAuthGate (strBytes "pw") none :=
  (auth_gate_equivalence (strBytes "pw") none).2.2 (by decide)

end MoonTV
